import Mathlib

/-!
Shallow embedding of the agentloop memory engine (`agentloop/mem4ai.py` and
`agentloop/mem_db_adapter.py`).

The SQLite tables become lists of records kept in insertion order
(`message_id` is the SQLite rowid, modelled by a running counter);
timestamps are naturals (seconds); Python `float` arithmetic on token
budgets is modelled by exact rationals with Python's `int()` truncation;
Python exceptions become `Except`; Python truthiness of optional strings
(`if user_id:` is false for both `None` and `""`) is modelled explicitly.

External collaborators are parameters: the tokenizer is a function
`String → Nat`, the FTS5 engine (the `MATCH` operator and the `bm25()`
rank) is an `FtsEnv`, and the embedding provider only appears through the
vector-search path of `search_memory`, which is passed in as an
`Except`-valued outcome.
-/

/-- A row of the `messages` table. `message_id` is the SQLite rowid. -/
structure MsgRow where
  message_id : Nat
  session_id : String
  chunk_index : Nat
  role : String
  content : String
  tokens : Nat
  timestamp : Nat
  metadata : Option String
deriving DecidableEq

/-- A row of the `messages_fts` full-text-index mirror table. -/
structure FtsRow where
  rowid : Nat
  content : String
  session_id : String
  metadata : String
  role : String
deriving DecidableEq

/-- A row of the `sessions` table. -/
structure SessionRow where
  session_id : String
  user_id : Option String
  created_at : Nat
  last_active : Nat
deriving DecidableEq

/-- The persistent state held by `DatabaseAdapter`: the three tables and
the next fresh rowid. -/
structure MemState where
  sessions : List SessionRow
  messages : List MsgRow
  fts : List FtsRow
  nextId : Nat
deriving DecidableEq

/-- A `Mem4AI` handle: the database plus `active_session_id`. -/
structure MemCtx where
  db : MemState
  active : Option String
deriving DecidableEq

/-- Configuration fields of the `Mem4AI` constructor. -/
structure MemConfig where
  contextWindow : Nat
  sessionTimeout : Nat
  chunkGap : Nat
  safetyBuffer : ℚ

/-- Errors surfaced to callers: `ValueError("user_id is required ...")`
and `ValueError("No active session ...")`. -/
inductive MemErr where
  | invalidState
  | invalidArgument
deriving DecidableEq

/-- Python truthiness of an optional string: `None` and `""` are falsy. -/
def strTruthy : Option String → Bool
  | none => false
  | some s => !(s == "")

/-- Decidable check that `needle` is a prefix of `hay` (character lists). -/
def charsHasPre : List Char → List Char → Bool
  | [], _ => true
  | _ :: _, [] => false
  | c :: cs, d :: ds => c == d && charsHasPre cs ds

/-- Decidable substring containment on character lists. -/
def charsHasSub (needle : List Char) : List Char → Bool
  | [] => charsHasPre needle []
  | d :: ds => charsHasPre needle (d :: ds) || charsHasSub needle ds

/-- `needle in hay` / SQL `LIKE %needle%` on strings. -/
def strHasSub (hay needle : String) : Bool :=
  charsHasSub needle.toList hay.toList

/-- A single apostrophe as a string. -/
def aposS : String := String.singleton '\''

/-- `DatabaseAdapter.session_exists`. -/
def sessionExists (st : MemState) (sid : String) : Bool :=
  st.sessions.any (fun r => r.session_id == sid)

/-- `DatabaseAdapter.session_is_active`: the row exists and
`last_active + timeout` is still in the future. -/
def sessionIsActive (st : MemState) (sid : String) (timeout now : Nat) : Bool :=
  st.sessions.any (fun r => r.session_id == sid && now < r.last_active + timeout)

/-- `DatabaseAdapter.update_session`: refresh `last_active`, and also
`user_id` when a truthy one is supplied. -/
def updateSession (st : MemState) (sid : String) (uid : Option String) (now : Nat) : MemState :=
  { st with sessions := st.sessions.map (fun r =>
      if r.session_id == sid then
        if strTruthy uid then { r with last_active := now, user_id := uid }
        else { r with last_active := now }
      else r) }

/-- `DatabaseAdapter.create_session`: insert a row with
`created_at` defaulting to `CURRENT_TIMESTAMP` and `last_active = now`. -/
def createSession (st : MemState) (sid : String) (uid : Option String) (now : Nat) : MemState :=
  { st with sessions := st.sessions ++ [⟨sid, uid, now, now⟩] }

/-- `DatabaseAdapter.add_message`: insert into `messages` and mirror
`(content, session_id, metadata, role)` into `messages_fts` under the same
rowid (`last_insert_rowid()`); the FTS metadata column gets `''` for `NULL`. -/
def dbAddMessage (st : MemState) (sid : String) (chunkIndex : Nat) (role content : String)
    (tokens : Nat) (md : Option String) (now : Nat) : MemState :=
  { st with
    messages := st.messages ++ [⟨st.nextId, sid, chunkIndex, role, content, tokens, now, md⟩],
    fts := st.fts ++ [⟨st.nextId, content, sid, md.getD "", role⟩],
    nextId := st.nextId + 1 }

/-- `DatabaseAdapter.clear_memory_by_conditions`: collect the session ids
named by `session_id` and by `user_id`'s sessions, delete their messages,
FTS mirror rows and session rows; then delete messages (and mirrors) whose
metadata contains `'agent_id': '<agent_id>'`.  The `try` block only guards
storage failures, so the function returns `True`. -/
def clearMemoryByConditions (st : MemState) (sessionId agentId userId : Option String) :
    Bool × MemState :=
  let ids1 : List String := if strTruthy sessionId then [sessionId.getD ""] else []
  let ids2 : List String :=
    if strTruthy userId then
      (st.sessions.filter (fun r => r.user_id == userId)).map (fun r => r.session_id)
    else []
  let ids := (ids1 ++ ids2).dedup
  let st1 :=
    if ids.isEmpty then st
    else
      let msgIds := (st.messages.filter (fun r => ids.contains r.session_id)).map
        (fun r => r.message_id)
      let fts1 := if msgIds.isEmpty then st.fts
        else st.fts.filter (fun f => !(msgIds.contains f.rowid))
      { st with
        fts := fts1,
        messages := st.messages.filter (fun r => !(ids.contains r.session_id)),
        sessions := st.sessions.filter (fun r => !(ids.contains r.session_id)) }
  let st2 :=
    if strTruthy agentId then
      let pat := aposS ++ "agent_id" ++ aposS ++ ": " ++ aposS ++ agentId.getD "" ++ aposS
      let aIds := (st1.messages.filter (fun r =>
          match r.metadata with
          | some md => strHasSub md pat
          | none => false)).map (fun r => r.message_id)
      if aIds.isEmpty then st1
      else
        { st1 with
          fts := st1.fts.filter (fun f => !(aIds.contains f.rowid)),
          messages := st1.messages.filter (fun r => !(aIds.contains r.message_id)) }
    else st1
  (true, st2)

/-- `Mem4AI.clear_memory`: delegates to the adapter. -/
def clearMemory (st : MemState) (sessionId agentId userId : Option String) : Bool × MemState :=
  clearMemoryByConditions st sessionId agentId userId

/-- `DatabaseAdapter.clear_all`: empty all three tables. -/
def clearAll (st : MemState) : Bool × MemState :=
  (true, { st with sessions := [], messages := [], fts := [] })

/-- Key-descending comparison used for stable descending sorts. -/
def descRel (f : α → β) [LinearOrder β] : α → α → Prop :=
  fun a b => f b ≤ f a

instance {f : α → β} [LinearOrder β] : DecidableRel (descRel f) :=
  fun a b => inferInstanceAs (Decidable (f b ≤ f a))

instance {f : α → β} [LinearOrder β] : IsTotal α (descRel f) :=
  ⟨fun a b => le_total (f b) (f a)⟩

instance {f : α → β} [LinearOrder β] : IsTrans α (descRel f) :=
  ⟨fun _ _ _ h1 h2 => le_trans h2 h1⟩

/-- Key-ascending comparison used for stable ascending sorts. -/
def ascRel (f : α → β) [LinearOrder β] : α → α → Prop :=
  fun a b => f a ≤ f b

instance {f : α → β} [LinearOrder β] : DecidableRel (ascRel f) :=
  fun a b => inferInstanceAs (Decidable (f a ≤ f b))

/-- Python's stable `list.sort(reverse=True, key=f)`: a stable sort
placing larger keys first; ties keep their original relative order
(insertion sort is stable, like CPython's sort). -/
def sortDescBy (f : α → β) [LinearOrder β] (l : List α) : List α :=
  List.insertionSort (descRel f) l

/-- A stable ascending sort by key, for SQL `ORDER BY` on a rank value. -/
def sortAscBy (f : α → β) [LinearOrder β] (l : List α) : List α :=
  List.insertionSort (ascRel f) l

/-- The loop body of `Mem4AI._apply_token_limit`: keep messages while the
running token total stays within the limit, stop at the first overflow. -/
def takeWithinTokens : List MsgRow → Int → Int → List MsgRow
  | [], _, _ => []
  | r :: rs, limit, total =>
    if total + (r.tokens : Int) ≤ limit then
      r :: takeWithinTokens rs limit (total + (r.tokens : Int))
    else []

/-- `Mem4AI._apply_token_limit`.  `if not limit_tokens:` returns the list
unchanged, which is triggered both by `None` and by a limit of `0`. -/
def applyTokenLimit (messages : List MsgRow) (limitTokens : Option Int) : List MsgRow :=
  match limitTokens with
  | none => messages
  | some l => if l = 0 then messages else takeWithinTokens messages l 0

/-- Sum of the `tokens` column over a list of message rows. -/
def sumTokens (l : List MsgRow) : Int :=
  (l.map (fun r => (r.tokens : Int))).sum

/-- `DatabaseAdapter.get_session_messages`: the session's rows ordered by
`timestamp DESC`, truncated to `limit`, then reversed back to
chronological order.  A `None` session id (SQL `session_id = NULL`)
matches no row. -/
def dbGetSessionMessages (st : MemState) (sessionId : Option String) (limit : Nat) :
    List MsgRow :=
  match sessionId with
  | none => []
  | some sid =>
    (((sortDescBy (fun r => r.timestamp)
        (st.messages.filter (fun r => r.session_id == sid))).take limit).reverse)

/-- `Mem4AI.get_session_messages`: fetch up to 100 recent rows of the
active session and apply the token limit to the chronological list. -/
def memGetSessionMessages (m : MemCtx) (tokenLimit : Option Int) : List MsgRow :=
  applyTokenLimit (dbGetSessionMessages m.db m.active 100) tokenLimit

/-- Modelled from the spec: the selection `get_session_messages` is
documented to perform — scan the chronological history from the most
recent message backwards, accumulate `tokens` until the budget would be
exceeded, then reverse the kept set back to chronological order. -/
def specScanBackward (chronological : List MsgRow) (limit : Int) : List MsgRow :=
  (takeWithinTokens chronological.reverse limit 0).reverse

/-- The row with the maximal timestamp (`ORDER BY timestamp DESC LIMIT 1`;
among equal timestamps the later-inserted row wins). -/
def lastByTimestamp (l : List MsgRow) : Option MsgRow :=
  l.foldl (fun acc r =>
    match acc with
    | none => some r
    | some m => if m.timestamp ≤ r.timestamp then some r else some m) none

/-- `DatabaseAdapter.get_last_assistant_message`: timestamp and
`chunk_index` of the session's most recent `assistant` row. -/
def getLastAssistantMessage (st : MemState) (sid : String) : Option (Nat × Nat) :=
  (lastByTimestamp (st.messages.filter
      (fun r => r.session_id == sid && r.role == "assistant"))).map
    (fun r => (r.timestamp, r.chunk_index))

/-- The chunk-index computation of `add_memory`: a `user` message starts
a new chunk when more than `chunk_gap` seconds passed since the session's
last assistant message; every non-user message gets `chunk_index = 0`. -/
def chunkIndexFor (cfg : MemConfig) (st : MemState) (sid role : String) (now : Nat) : Nat :=
  if role == "user" then
    match getLastAssistantMessage st sid with
    | some (ts, ci) => if cfg.chunkGap < now - ts then ci + 1 else ci
    | none => 0
  else 0

/-- `Mem4AI.add_memory`: requires an active session (state error
otherwise); computes `tokens` with the external tokenizer and the chunk
index from the session history; inserts the row (the embedding enqueue has
no effect on the store). -/
def addMemory (cfg : MemConfig) (tok : String → Nat) (m : MemCtx) (now : Nat)
    (message role : String) (md : Option String) : Except MemErr MemCtx :=
  match m.active with
  | none => .error .invalidState
  | some sid =>
    .ok { m with db := (dbAddMessage m.db sid (chunkIndexFor cfg m.db sid role now)
      role message (tok message) md now) }

/-- `Mem4AI.load_session`: resume an active session; otherwise require a
truthy `user_id` for a brand-new id (raising `ValueError` before touching
any state), reactivate an existing stale row, or insert a new one.  The
returned pair is the result (or error) together with the handle after the
call. -/
def loadSession (cfg : MemConfig) (m : MemCtx) (now : Nat) (sessionId : String)
    (userId : Option String) : Except MemErr String × MemCtx :=
  let ex := sessionExists m.db sessionId
  if sessionIsActive m.db sessionId cfg.sessionTimeout now then
    let m1 : MemCtx := { m with active := some sessionId }
    (.ok sessionId,
      { m1 with db := (updateSession m1.db sessionId
          (if strTruthy userId then userId else none) now) })
  else
    if !(strTruthy userId) && !ex then
      (.error .invalidArgument, m)
    else
      let m1 : MemCtx := { m with active := some sessionId }
      if ex then
        (.ok sessionId,
          { m1 with db := (updateSession m1.db sessionId
              (if strTruthy userId then userId else none) now) })
      else
        (.ok sessionId, { m1 with db := createSession m1.db sessionId userId now })

/-- Python's `\s` whitespace class over ASCII. -/
def pyIsWs (c : Char) : Bool :=
  c == ' ' || c == '\t' || c == '\n' || c == '\r' || c == '\x0b' || c == '\x0c'

/-- Python's `\w` word-character class over ASCII. -/
def pyIsWordChar (c : Char) : Bool :=
  c.isAlphanum || c == '_'

/-- The two `replace` calls of `escape_fts_query`: both quote characters
become spaces. -/
def cleanQuotes (q : String) : String :=
  q.map (fun c => if c == '"' || c == '\'' then ' ' else c)

/-- `re.split(r'\s+', ...)` with empty fragments dropped. -/
def queryWords (q : String) : List String :=
  ((cleanQuotes q).split pyIsWs).filter (fun w => !(w == ""))

/-- Quote a term when it contains a character outside `[\w\s]`. -/
def escapeWord (w : String) : String :=
  if w.toList.any (fun c => !(pyIsWordChar c) && !(pyIsWs c)) then "\"" ++ w ++ "\"" else w

/-- `DatabaseAdapter.escape_fts_query`: sanitize user text into an
`OR`-joined FTS query; an all-quotes/whitespace query becomes `""`. -/
def escapeFtsQuery (q : String) : String :=
  let ws := queryWords q
  if ws.isEmpty then "\"\"" else String.intercalate " OR " (ws.map escapeWord)

/-- The external FTS5 engine: the `MATCH` operator applied to the escaped
query and a content column, and the `bm25()` rank (ascending = better)
for a rowid under the escaped query. -/
structure FtsEnv where
  ftsMatch : String → String → Bool
  rank : String → Nat → ℚ

/-- A metadata-filter value: the source treats strings (quoted, with `'`
doubled) and non-strings (interpolated bare) differently. -/
inductive MetaVal where
  | str (v : String)
  | raw (v : String)
deriving DecidableEq

/-- The `v.replace("'", "''")` escaping applied to string filter values. -/
def dupApos (s : String) : String :=
  String.join (s.toList.map (fun c =>
    if c == '\'' then aposS ++ aposS else String.singleton c))

/-- The text placed between the `%` wildcards of the metadata `LIKE`
pattern for one filter key/value pair. -/
def likeNeedle (k : String) : MetaVal → String
  | .str v => aposS ++ k ++ aposS ++ ": " ++ aposS ++ dupApos v ++ aposS
  | .raw v => aposS ++ k ++ aposS ++ ": " ++ v

/-- `messages.metadata LIKE '%..%'`: `NULL` metadata never matches. -/
def mdLike (md : Option String) (k : String) (v : MetaVal) : Bool :=
  match md with
  | some s => strHasSub s (likeNeedle k v)
  | none => false

/-- An optional string behind a Python falsy check: a falsy value
contributes no WHERE clause. -/
def normStrOpt (o : Option String) : Option String :=
  if strTruthy o then o else none

/-- An empty metadata-filter dict is falsy and drops its clause. -/
def normMdf (o : Option (List (String × MetaVal))) : Option (List (String × MetaVal)) :=
  match o with
  | some [] => none
  | x => x

/-- The WHERE clause of `search_messages` applied to one joined row: the
FTS-mirror join, then the optional `MATCH`, session, metadata-`LIKE` and
time-range conditions (`true` when the corresponding filter is absent). -/
def smPred (env : FtsEnv) (st : MemState) (q sid : Option String)
    (mdf : Option (List (String × MetaVal))) (tr : Option (Nat × Nat)) (r : MsgRow) : Bool :=
  st.fts.any (fun f => f.rowid == r.message_id) &&
  (match q with
   | some s => env.ftsMatch (escapeFtsQuery s) r.content
   | none => true) &&
  (match sid with
   | some s => r.session_id == s
   | none => true) &&
  (match mdf with
   | some kvs => kvs.all (fun kv => mdLike r.metadata kv.fst kv.snd)
   | none => true) &&
  (match tr with
   | some p => decide (p.fst ≤ r.timestamp) && decide (r.timestamp ≤ p.snd)
   | none => true)

/-- `DatabaseAdapter.search_messages`: join `messages` with its FTS mirror,
apply the optional `MATCH`, session, metadata-`LIKE` and time-range
clauses (each skipped when its argument is falsy), order by `bm25` when a
query is present (by `timestamp DESC` otherwise) and truncate to `limit`. -/
def searchMessages (env : FtsEnv) (st : MemState) (query sessionId : Option String)
    (mdFilter : Option (List (String × MetaVal))) (timeRange : Option (Nat × Nat))
    (limit : Nat) : List MsgRow :=
  let q : Option String := normStrOpt query
  let rows := st.messages.filter
    (smPred env st q (normStrOpt sessionId) (normMdf mdFilter) timeRange)
  let ordered :=
    match q with
    | some s => sortAscBy (fun r : MsgRow => env.rank (escapeFtsQuery s) r.message_id) rows
    | none => sortDescBy (fun r : MsgRow => r.timestamp) rows
  ordered.take limit

/-- A candidate returned by the vector path of `search_memory`: the
message row together with its `message_id` and cosine similarity (a
`message_id` of `0` models a missing/falsy id, which the source skips). -/
structure VRow where
  row : MsgRow
  message_id : Nat
  similarity : ℚ
deriving DecidableEq

/-- The combination loop of `search_memory`: candidates with a truthy
`message_id` are scored `0.5 * similarity + 0.5 * bm25`, with a bm25
default of `0` provided by the score lookup. -/
def combineScores (vres : List VRow) (bm25 : Nat → ℚ) : List (ℚ × VRow) :=
  (vres.filter (fun v => v.message_id != 0)).map
    (fun v => ((1 : ℚ)/2 * v.similarity + 1/2 * bm25 v.message_id, v))

/-- `combined.sort(reverse=True, key=lambda x: x[0])`: Python's stable
sort, descending on the score component only. -/
def hybridSort (combined : List (ℚ × VRow)) : List (ℚ × VRow) :=
  sortDescBy (fun p => p.fst) combined

/-- The vector path's ranked output: score, stable-sort, extract rows. -/
def hybridResults (vres : List VRow) (bm25 : Nat → ℚ) : List MsgRow :=
  (hybridSort (combineScores vres bm25)).map (fun p => p.snd.row)

/-- `Mem4AI.search_memory`.  The `try` block runs the vector search and
the bm25 lookup; both call adapter methods (`search_vectors`,
`get_bm25_scores`) that the adapter does not define, so its outcome is a
parameter `vecPath` — modelled from the spec for the success case (a
candidate list with similarities plus per-id bm25 scores), while the
shipped adapter always produces the `error` case (`AttributeError`).  Any
failure is caught and falls back to the FTS-only `search_messages` over
the active session; the value is wrapped in `ok` because the `except`
clause lets no exception escape to the caller. -/
def hybridOrFallback (env : FtsEnv) (vecPath : Except Unit (List VRow × (Nat → ℚ)))
    (m : MemCtx) (query : String) (mdFilter : Option (List (String × MetaVal)))
    (timeRange : Option (Nat × Nat)) : List MsgRow :=
  match vecPath with
  | .ok vb => hybridResults vb.fst vb.snd
  | .error _ => searchMessages env m.db (some query) m.active mdFilter timeRange 100

/-- The caller-visible result of `search_memory`: the ranked list under
the optional token limit, always an `ok` value. -/
def searchMemory (env : FtsEnv) (vecPath : Except Unit (List VRow × (Nat → ℚ)))
    (m : MemCtx) (query : String) (mdFilter : Option (List (String × MetaVal)))
    (timeRange : Option (Nat × Nat)) (limitTokens : Option Int) :
    Except Unit (List MsgRow) :=
  .ok (applyTokenLimit (hybridOrFallback env vecPath m query mdFilter timeRange) limitTokens)

/-- Python `int()` applied to an exact rational: truncation toward zero. -/
def pyInt (q : ℚ) : Int :=
  if q < 0 then -(Int.floor (-q)) else Int.floor q

/-- `usable_tokens = int(max_tokens * (1 - self.safety_buffer))`. -/
def usableTokens (sb : ℚ) (T : Nat) : Int :=
  pyInt ((T : ℚ) * (1 - sb))

/-- `short_term_max = int(usable_tokens * 0.7)`. -/
def shortTermBudget (sb : ℚ) (T : Nat) : Int :=
  pyInt ((usableTokens sb T : ℚ) * (7/10))

/-- `max_tokens = max_tokens or self.context_window` (so both `None` and
`0` fall back to the configured context window). -/
def resolveMaxTokens (cfg : MemConfig) : Option Nat → Nat
  | some t => if t = 0 then cfg.contextWindow else t
  | none => cfg.contextWindow

/-- `Mem4AI.build_context`: 70% of the usable budget goes to the recent
session messages, the remainder (when positive) to hybrid search. -/
def buildContext (cfg : MemConfig) (env : FtsEnv)
    (vecPath : Except Unit (List VRow × (Nat → ℚ))) (m : MemCtx) (query : String)
    (maxTokens : Option Nat) : List MsgRow × List MsgRow :=
  let T := resolveMaxTokens cfg maxTokens
  let shortTerm := applyTokenLimit (dbGetSessionMessages m.db m.active 100)
      (some (shortTermBudget cfg.safetyBuffer T))
  let longMax : Int := usableTokens cfg.safetyBuffer T - sumTokens shortTerm
  let longTerm :=
    if 0 < longMax then
      match searchMemory env vecPath m query none none (some longMax) with
      | .ok l => l
      | .error _ => []
    else []
  (shortTerm, longTerm)

/-- `np.dot` over real vectors of matching length. -/
def dotList (a b : List ℝ) : ℝ :=
  (List.zipWith (fun x y => x * y) a b).sum

/-- `np.linalg.norm`: the Euclidean norm. -/
noncomputable def normList (a : List ℝ) : ℝ :=
  Real.sqrt ((a.map (fun x => x ^ 2)).sum)

/-- `Mem4AI._cosine_similarity`: similarity is `0` when either norm is
`0`, otherwise the normalized dot product. -/
noncomputable def cosineSimilarity (a b : List ℝ) : ℝ :=
  if normList a = 0 ∨ normList b = 0 then 0
  else dotList a b / (normList a * normList b)

/-- A concrete populated database used as the explicit input of
counterexamples: one session with one message, mirrored in the index. -/
def exDb1 : MemState :=
  { sessions := [⟨"s1", some "u1", 0, 0⟩],
    messages := [⟨1, "s1", 0, "user", "hello world", 3, 1, none⟩],
    fts := [⟨1, "hello world", "s1", "", "user"⟩],
    nextId := 2 }

/-- Default-style configuration: context window 4096, session timeout
1800 s, chunk gap 600 s, safety buffer 0.2. -/
def exCfg : MemConfig :=
  { contextWindow := 4096, sessionTimeout := 1800, chunkGap := 600, safetyBuffer := 1/5 }

/-- An FTS engine for concrete runs: every query matches every content,
all ranks equal. -/
def exEnv : FtsEnv :=
  { ftsMatch := fun _ _ => true, rank := fun _ _ => 0 }

/-- Three 10-token messages of one session, timestamps 1 < 2 < 3. -/
def exM1 : MsgRow := ⟨1, "s", 0, "user", "first", 10, 1, none⟩

/-- Second message of the three-message session. -/
def exM2 : MsgRow := ⟨2, "s", 0, "assistant", "second", 10, 2, none⟩

/-- Third (most recent) message of the three-message session. -/
def exM3 : MsgRow := ⟨3, "s", 0, "user", "third", 10, 3, none⟩

/-- A handle whose active session holds the three 10-token messages. -/
def exMem2 : MemCtx :=
  { db :=
      { sessions := [⟨"s", some "u", 0, 3⟩],
        messages := [exM1, exM2, exM3],
        fts := [⟨1, "first", "s", "", "user"⟩, ⟨2, "second", "s", "", "assistant"⟩,
                ⟨3, "third", "s", "", "user"⟩],
        nextId := 4 },
    active := some "s" }

/-- A handle over the one-message database with its session active. -/
def exMemC3 : MemCtx := { db := exDb1, active := some "s1" }

/-- A handle with an active empty session, used for concrete runs. -/
def exMem0 : MemCtx :=
  { db := { sessions := [⟨"s", some "u", 0, 0⟩], messages := [], fts := [], nextId := 1 },
    active := some "s" }

/-- A concrete tokenizer for runs: the character count. -/
def exTok : String → Nat := fun s => s.length

/-- The chunking scenario run: user/assistant at seconds 0 and 1, then —
after a silence longer than the 600-second chunk gap — user at 700 and
assistant at 701. -/
def c4run : Except MemErr MemCtx :=
  addMemory exCfg exTok exMem0 0 "hi" "user" none >>= fun a =>
  addMemory exCfg exTok a 1 "hello" "assistant" none >>= fun b =>
  addMemory exCfg exTok b 700 "next" "user" none >>= fun c =>
  addMemory exCfg exTok c 701 "sure" "assistant" none

/-- A message stored in session `s2` that matches the query text. -/
def exRow5 : MsgRow := ⟨1, "s2", 0, "user", "hello world", 3, 1, none⟩

/-- A handle whose active session is `s1` while the only matching message
lives in `s2`. -/
def exMem5 : MemCtx :=
  { db :=
      { sessions := [⟨"s1", some "u1", 0, 0⟩, ⟨"s2", some "u2", 0, 0⟩],
        messages := [exRow5],
        fts := [⟨1, "hello world", "s2", "", "user"⟩],
        nextId := 2 },
    active := some "s1" }

/-- The older of two vector candidates (timestamp 1). -/
def exOldRow : MsgRow := ⟨1, "s", 0, "user", "old", 5, 1, none⟩

/-- The newer of two vector candidates (timestamp 2). -/
def exNewRow : MsgRow := ⟨2, "s", 0, "assistant", "new", 5, 2, none⟩

/-- Two vector candidates: the older one first, similarities 0.6 and 0.4. -/
def exVres : List VRow := [⟨exOldRow, 1, 3/5⟩, ⟨exNewRow, 2, 2/5⟩]

/-- bm25 scores completing both combined scores to exactly 0.5. -/
def exBm25 : Nat → ℚ := fun n => if n = 1 then 2/5 else 3/5

/-- The handle produced by adding `"ab"` as a user turn to the empty
active session of `exMem0` at second 5. -/
def exMem7 : MemCtx :=
  { db :=
      { sessions := [⟨"s", some "u", 0, 0⟩],
        messages := [⟨1, "s", 0, "user", "ab", 2, 5, none⟩],
        fts := [⟨1, "ab", "s", "", "user"⟩],
        nextId := 2 },
    active := some "s" }

/-- C1 counterexample: with all three filters unset on a populated
database, `clear_memory` returns `True`, not `False`. -/
theorem c1_counterexample : (clearMemory exDb1 none none none).fst ≠ false := by
  decide

/-- C1 (amended): `clear_memory` with all three filters unset is a no-op —
it deletes nothing, leaving `sessions`, `messages` and `messages_fts`
unchanged — but it returns `true`, not `false`. -/
theorem c1_no_filters_noop (st : MemState) :
    clearMemory st none none none = (true, st) := by
  rfl

/-! ### Toolkit lemmas -/

/-- Unfolding lemma for the token sum of a cons cell. -/
theorem sumTokens_cons (r : MsgRow) (l : List MsgRow) :
    sumTokens (r :: l) = (r.tokens : Int) + sumTokens l := by
  simp [sumTokens]

/-- The token sum distributes over append. -/
theorem sumTokens_append (l1 l2 : List MsgRow) :
    sumTokens (l1 ++ l2) = sumTokens l1 + sumTokens l2 := by
  simp [sumTokens]

/-- Token sums are nonnegative. -/
theorem sumTokens_nonneg (l : List MsgRow) : 0 ≤ sumTokens l := by
  induction l with
  | nil => simp [sumTokens]
  | cons r t ih =>
    rw [sumTokens_cons]
    have h : (0 : Int) ≤ (r.tokens : Int) := Int.ofNat_nonneg _
    linarith

/-- The greedy truncation never exceeds its budget. -/
theorem takeWithinTokens_sum_le (l : List MsgRow) :
    ∀ L total : Int, total ≤ L → total + sumTokens (takeWithinTokens l L total) ≤ L := by
  induction l with
  | nil =>
    intro L total h
    simpa [takeWithinTokens, sumTokens] using h
  | cons r t ih =>
    intro L total h
    by_cases hc : total + (r.tokens : Int) ≤ L
    · rw [takeWithinTokens, if_pos hc, sumTokens_cons]
      have := ih L (total + (r.tokens : Int)) hc
      linarith
    · rw [takeWithinTokens, if_neg hc]
      simpa [sumTokens] using h

/-- When the whole list fits the budget, nothing is truncated. -/
theorem takeWithinTokens_all (l : List MsgRow) :
    ∀ L total : Int, total + sumTokens l ≤ L → takeWithinTokens l L total = l := by
  induction l with
  | nil => intro L total _; rfl
  | cons r t ih =>
    intro L total h
    rw [sumTokens_cons] at h
    have h0 : 0 ≤ sumTokens t := sumTokens_nonneg t
    have hc : total + (r.tokens : Int) ≤ L := by linarith
    rw [takeWithinTokens, if_pos hc, ih L (total + (r.tokens : Int)) (by linarith)]

/-- A positive explicit token limit bounds the sum of the kept rows. -/
theorem applyTokenLimit_sum_le (l : List MsgRow) (L : Int) (hL : 1 ≤ L) :
    sumTokens (applyTokenLimit l (some L)) ≤ L := by
  have hne : ¬ (L = 0) := by omega
  rw [applyTokenLimit, if_neg hne]
  have := takeWithinTokens_sum_le l L 0 (by linarith)
  linarith

/-- A nonzero limit at least the total token sum keeps the whole list. -/
theorem applyTokenLimit_all (l : List MsgRow) (L : Int) (hL : L ≠ 0)
    (h : sumTokens l ≤ L) : applyTokenLimit l (some L) = l := by
  rw [applyTokenLimit, if_neg hL]
  exact takeWithinTokens_all l L 0 (by linarith)

/-- Truncation toward zero is a lower bound on a nonnegative rational. -/
theorem pyInt_le (q : ℚ) (h : 0 ≤ q) : (pyInt q : ℚ) ≤ q := by
  rw [pyInt, if_neg (not_lt.mpr h)]
  exact_mod_cast Int.floor_le q

/-- Truncation toward zero preserves nonnegativity. -/
theorem pyInt_nonneg (q : ℚ) (h : 0 ≤ q) : 0 ≤ pyInt q := by
  rw [pyInt, if_neg (not_lt.mpr h)]
  exact Int.floor_nonneg.mpr h

/-- The stable descending sort permutes its input. -/
theorem sortDescBy_perm [LinearOrder β] (f : α → β) (l : List α) :
    List.Perm (sortDescBy f l) l :=
  List.perm_insertionSort (descRel f) l

/-- The stable descending sort sorts by its key, larger keys first. -/
theorem sortDescBy_sorted [LinearOrder β] (f : α → β) (l : List α) :
    List.Sorted (descRel f) (sortDescBy f l) :=
  List.sorted_insertionSort (descRel f) l

/-- The stable ascending sort permutes its input. -/
theorem sortAscBy_perm [LinearOrder β] (f : α → β) (l : List α) :
    List.Perm (sortAscBy f l) l :=
  List.perm_insertionSort (ascRel f) l

/-- Inserting an element whose key is strictly below every key of the
list sends it to the very end. -/
theorem orderedInsert_end [LinearOrder β] (f : α → β) (x : α) (l : List α)
    (h : ∀ y ∈ l, f x < f y) :
    List.orderedInsert (descRel f) x l = l ++ [x] := by
  induction l with
  | nil => rfl
  | cons b t ih =>
    have hb : f x < f b := h b (by simp)
    have hnb : ¬ descRel f x b := not_le.mpr hb
    rw [List.orderedInsert, if_neg hnb, ih (fun y hy => h y (by simp [hy]))]
    rfl

/-- The stable descending sort of a strictly key-ascending list is its
reversal. -/
theorem sortDescBy_ascending [LinearOrder β] (f : α → β) (l : List α)
    (h : List.Pairwise (fun a b => f a < f b) l) :
    sortDescBy f l = l.reverse := by
  induction l with
  | nil => rfl
  | cons x t ih =>
    rw [List.pairwise_cons] at h
    rw [sortDescBy, List.insertionSort]
    rw [show List.insertionSort (descRel f) t = sortDescBy f t from rfl, ih h.2]
    rw [orderedInsert_end f x t.reverse (fun y hy => h.1 y (List.mem_reverse.mp hy))]
    simp

/-- An active session necessarily has a session row. -/
theorem sessionExists_of_active (st : MemState) (sid : String) (t now : Nat)
    (h : sessionIsActive st sid t now = true) : sessionExists st sid = true := by
  simp only [sessionIsActive, List.any_eq_true, Bool.and_eq_true] at h
  obtain ⟨r, hr, hcond⟩ := h
  simp only [sessionExists, List.any_eq_true]
  exact ⟨r, hr, hcond.1⟩

/-! ### Claim theorems -/

/-- C2: with three 10-token messages (timestamps 1 < 2 < 3) and a token
limit of 15, `get_session_messages` keeps the oldest message, while the
selection described by the spec (scan from the most recent backwards, then
reverse) keeps the newest — the code returns an oldest-first prefix, not
the most recent turns that fit. -/
theorem c2_code_behavior :
    memGetSessionMessages exMem2 (some 15) = [exM1] ∧
    specScanBackward (dbGetSessionMessages exMem2.db (some "s") 100) 15 = [exM3] := by
  constructor <;> rfl

/-- C4: the chunking run (user at 0, assistant at 1, user at 700 after a
silence beyond the 600-second gap, assistant at 701) stores chunk indices
`[0, 0, 1, 0]`: the final assistant message falls back to chunk `0`
instead of staying in chunk `1`, so the per-session chunk sequence is not
non-decreasing. -/
theorem c4_code_behavior :
    c4run.map (fun m => m.db.messages.map (fun r => r.chunk_index)) =
      Except.ok [0, 0, 1, 0] := by
  rfl

/-- C8 counterexample: two candidates whose combined scores tie at 1/2;
the hybrid ranking keeps the candidate order (older row first), not the
recency order the claim states. -/
theorem c8_counterexample :
    (combineScores exVres exBm25).map (fun p => p.fst) = [1/2, 1/2] ∧
    hybridResults exVres exBm25 = [exOldRow, exNewRow] ∧
    exOldRow.timestamp < exNewRow.timestamp := by
  refine ⟨by norm_num [combineScores, exVres, exBm25, exOldRow, exNewRow], ?_, by decide⟩
  norm_num [hybridResults, hybridSort, sortDescBy, combineScores, exVres, exBm25,
    List.insertionSort, List.orderedInsert, descRel]

/-- C8 (amended): on a successful vector path the hybrid ranking sorts the
eligible candidates by the combined score `0.5 * similarity + 0.5 * bm25`
in descending order; the sort permutes the scored candidates (determinism
and tie order come from the stable sort over the candidate list). -/
theorem c8_hybrid_order (vres : List VRow) (bm25 : Nat → ℚ) :
    List.Sorted (descRel (fun p : ℚ × VRow => p.fst))
      (hybridSort (combineScores vres bm25)) ∧
    List.Perm (hybridSort (combineScores vres bm25)) (combineScores vres bm25) ∧
    ∀ p ∈ combineScores vres bm25,
      p.fst = (1 : ℚ)/2 * p.snd.similarity + 1/2 * bm25 p.snd.message_id := by
  refine ⟨sortDescBy_sorted _ _, sortDescBy_perm _ _, ?_⟩
  intro p hp
  simp only [combineScores, List.mem_map] at hp
  obtain ⟨v, _, rfl⟩ := hp
  rfl

/-- C3 counterexample: with `max_tokens = 1` the derived short-term
budget is `0`, which `_apply_token_limit` treats as "no limit", so
`build_context` returns the whole 3-token history and the claimed bound
`sum ≤ T * (1 - safety_buffer) = 0.8` fails. -/
theorem c3_counterexample :
    ¬ (((sumTokens (buildContext exCfg exEnv (.error ()) exMemC3 "q" (some 1)).fst +
         sumTokens (buildContext exCfg exEnv (.error ()) exMemC3 "q" (some 1)).snd : Int) : ℚ) ≤
        (1 : ℚ) * (1 - exCfg.safetyBuffer)) := by
  have h : buildContext exCfg exEnv (.error ()) exMemC3 "q" (some 1) =
      ([⟨1, "s1", 0, "user", "hello world", 3, 1, none⟩], []) := by
    norm_num [buildContext, resolveMaxTokens, exCfg, exMemC3, exDb1, dbGetSessionMessages,
      sortDescBy, List.insertionSort, List.orderedInsert, applyTokenLimit, shortTermBudget,
      usableTokens, pyInt, sumTokens]
  rw [h]
  norm_num [sumTokens, exCfg]

/-- C3 (amended): for every query and every `max_tokens = T` for which the
derived short-term budget `int(int(T*(1-sb))*0.7)` is positive (`T = 1, 2`
are the only degenerate values under the default buffer, where the zero
budget is treated as "no limit"), the token sum over the returned
`short_term` and `long_term` lists is at most `T * (1 - safety_buffer)`. -/
theorem c3_budget_bound (cfg : MemConfig) (env : FtsEnv)
    (vecPath : Except Unit (List VRow × (Nat → ℚ))) (m : MemCtx) (q : String) (T : Nat)
    (hT : T ≠ 0) (hsb1 : cfg.safetyBuffer ≤ 1)
    (hbudget : 1 ≤ shortTermBudget cfg.safetyBuffer T) :
    ((sumTokens (buildContext cfg env vecPath m q (some T)).fst +
      sumTokens (buildContext cfg env vecPath m q (some T)).snd : Int) : ℚ) ≤
      (T : ℚ) * (1 - cfg.safetyBuffer) := by
  have hres : resolveMaxTokens cfg (some T) = T := by simp [resolveMaxTokens, hT]
  have hq0 : (0 : ℚ) ≤ (T : ℚ) * (1 - cfg.safetyBuffer) := by
    have h1 : (0 : ℚ) ≤ (T : ℚ) := Nat.cast_nonneg T
    have h2 : (0 : ℚ) ≤ 1 - cfg.safetyBuffer := by linarith
    exact mul_nonneg h1 h2
  have hU0 : 0 ≤ usableTokens cfg.safetyBuffer T := pyInt_nonneg _ hq0
  have hUle : ((usableTokens cfg.safetyBuffer T : Int) : ℚ) ≤ (T : ℚ) * (1 - cfg.safetyBuffer) :=
    pyInt_le _ hq0
  have hBU : shortTermBudget cfg.safetyBuffer T ≤ usableTokens cfg.safetyBuffer T := by
    have hU0q : (0 : ℚ) ≤ ((usableTokens cfg.safetyBuffer T : Int) : ℚ) := by
      exact_mod_cast hU0
    have h1 : (0 : ℚ) ≤ ((usableTokens cfg.safetyBuffer T : Int) : ℚ) * (7/10) := by
      nlinarith
    have h2 : ((shortTermBudget cfg.safetyBuffer T : Int) : ℚ) ≤
        ((usableTokens cfg.safetyBuffer T : Int) : ℚ) * (7/10) := pyInt_le _ h1
    have h3 : ((usableTokens cfg.safetyBuffer T : Int) : ℚ) * (7/10) ≤
        ((usableTokens cfg.safetyBuffer T : Int) : ℚ) := by nlinarith
    exact_mod_cast le_trans h2 h3
  have hbc : buildContext cfg env vecPath m q (some T) =
      (applyTokenLimit (dbGetSessionMessages m.db m.active 100)
        (some (shortTermBudget cfg.safetyBuffer T)),
       if 0 < usableTokens cfg.safetyBuffer T -
            sumTokens (applyTokenLimit (dbGetSessionMessages m.db m.active 100)
              (some (shortTermBudget cfg.safetyBuffer T))) then
         applyTokenLimit (hybridOrFallback env vecPath m q none none)
           (some (usableTokens cfg.safetyBuffer T -
             sumTokens (applyTokenLimit (dbGetSessionMessages m.db m.active 100)
               (some (shortTermBudget cfg.safetyBuffer T)))))
       else []) := by
    simp only [buildContext, hres, searchMemory]
  rw [hbc]
  set s := applyTokenLimit (dbGetSessionMessages m.db m.active 100)
      (some (shortTermBudget cfg.safetyBuffer T)) with hsdef
  have hsum_s : sumTokens s ≤ shortTermBudget cfg.safetyBuffer T :=
    applyTokenLimit_sum_le _ _ hbudget
  by_cases hlm : 0 < usableTokens cfg.safetyBuffer T - sumTokens s
  · rw [if_pos hlm]
    have hlt : sumTokens (applyTokenLimit (hybridOrFallback env vecPath m q none none)
        (some (usableTokens cfg.safetyBuffer T - sumTokens s))) ≤
        usableTokens cfg.safetyBuffer T - sumTokens s :=
      applyTokenLimit_sum_le _ _ (by omega)
    have htot : sumTokens s + sumTokens (applyTokenLimit
        (hybridOrFallback env vecPath m q none none)
        (some (usableTokens cfg.safetyBuffer T - sumTokens s))) ≤
        usableTokens cfg.safetyBuffer T := by omega
    calc ((sumTokens s + sumTokens (applyTokenLimit
            (hybridOrFallback env vecPath m q none none)
            (some (usableTokens cfg.safetyBuffer T - sumTokens s))) : Int) : ℚ)
        ≤ ((usableTokens cfg.safetyBuffer T : Int) : ℚ) := by exact_mod_cast htot
      _ ≤ (T : ℚ) * (1 - cfg.safetyBuffer) := hUle
  · rw [if_neg hlm]
    have htot : sumTokens s + sumTokens ([] : List MsgRow) ≤
        usableTokens cfg.safetyBuffer T := by
      have : sumTokens ([] : List MsgRow) = 0 := rfl
      omega
    calc ((sumTokens s + sumTokens ([] : List MsgRow) : Int) : ℚ)
        ≤ ((usableTokens cfg.safetyBuffer T : Int) : ℚ) := by exact_mod_cast htot
      _ ≤ (T : ℚ) * (1 - cfg.safetyBuffer) := hUle

/-- C3 witness: the bound theorem applied at `T = 1000` over the concrete
one-message store, where the short-term budget is `560 ≥ 1`. -/
theorem c3_witness :
    (1 : Int) ≤ shortTermBudget exCfg.safetyBuffer 1000 ∧
    ((sumTokens (buildContext exCfg exEnv (.error ()) exMemC3 "q" (some 1000)).fst +
      sumTokens (buildContext exCfg exEnv (.error ()) exMemC3 "q" (some 1000)).snd : Int) : ℚ) ≤
      (1000 : ℚ) * (1 - exCfg.safetyBuffer) := by
  have hb : (1 : Int) ≤ shortTermBudget exCfg.safetyBuffer 1000 := by
    norm_num [shortTermBudget, usableTokens, pyInt, exCfg]
  exact ⟨hb, c3_budget_bound exCfg exEnv (.error ()) exMemC3 "q" 1000 (by norm_num)
    (by norm_num [exCfg]) hb⟩

/-- The FTS fallback returns at least one row whenever a stored message of
the filtered session is mirrored in the index and matched by the engine. -/
theorem searchMessages_ne_nil (env : FtsEnv) (st : MemState) (q sid : String)
    (row : MsgRow) (hq : q ≠ "") (hsid : sid ≠ "")
    (hrow : row ∈ st.messages)
    (hfts : st.fts.any (fun f => f.rowid == row.message_id) = true)
    (hmatch : env.ftsMatch (escapeFtsQuery q) row.content = true)
    (hrs : row.session_id = sid) :
    searchMessages env st (some q) (some sid) none none 100 ≠ [] := by
  have hqT : normStrOpt (some q) = some q := by simp [normStrOpt, strTruthy, hq]
  have hsT : normStrOpt (some sid) = some sid := by simp [normStrOpt, strTruthy, hsid]
  have hse : searchMessages env st (some q) (some sid) none none 100 =
      (sortAscBy (fun r : MsgRow => env.rank (escapeFtsQuery q) r.message_id)
        (st.messages.filter (smPred env st (some q) (some sid) none none))).take 100 := by
    simp only [searchMessages, hqT, hsT, normMdf]
  rw [hse]
  have hP : smPred env st (some q) (some sid) none none row = true := by
    simp [smPred, hfts, hmatch, hrs]
  have hmemf : row ∈ st.messages.filter (smPred env st (some q) (some sid) none none) :=
    List.mem_filter.mpr ⟨hrow, hP⟩
  have hlen2 : 0 < (sortAscBy (fun r : MsgRow => env.rank (escapeFtsQuery q) r.message_id)
      (st.messages.filter (smPred env st (some q) (some sid) none none))).length := by
    rw [List.Perm.length_eq (sortAscBy_perm _ _)]
    exact List.length_pos_of_mem hmemf
  intro hnil
  have hz := congrArg List.length hnil
  rw [List.length_take] at hz
  simp only [List.length_nil, Nat.min_eq_zero_iff] at hz
  omega

/-- C5 counterexample: with the vector path failing, a message whose
content the engine matches is stored in session `s2`, but the active
session is `s1`, so `search_memory` returns the empty list — not a
non-empty result — even though a stored message matches the query text. -/
theorem c5_counterexample :
    searchMemory exEnv (.error ()) exMem5 "hello" none none none = .ok [] ∧
    exEnv.ftsMatch (escapeFtsQuery "hello") exRow5.content = true ∧
    exRow5 ∈ exMem5.db.messages := by
  refine ⟨rfl, rfl, ?_⟩
  simp [exMem5]

/-- C5 (amended): whenever the vector path fails, `search_memory` raises
no error: it returns the BM25-ranked fallback of the full-text search, and
(with no token limit) that result is non-empty whenever a message stored
in the *active session* is mirrored in the index and matched by the engine
— matches outside the active session do not count. -/
theorem c5_fallback_keyword (env : FtsEnv) (u : Unit) (m : MemCtx) (q : String)
    (row : MsgRow)
    (hq : q ≠ "")
    (hrow : row ∈ m.db.messages)
    (hfts : m.db.fts.any (fun f => f.rowid == row.message_id) = true)
    (hmatch : env.ftsMatch (escapeFtsQuery q) row.content = true)
    (hactive : m.active = some row.session_id)
    (hsid : row.session_id ≠ "") :
    searchMemory env (.error u) m q none none none =
      .ok (searchMessages env m.db (some q) m.active none none 100) ∧
    searchMessages env m.db (some q) m.active none none 100 ≠ [] := by
  constructor
  · rfl
  · rw [hactive]
    exact searchMessages_ne_nil env m.db q row.session_id row hq hsid hrow hfts hmatch rfl

/-- C5 witness: the fallback theorem applied to a store whose active
session holds the matching message. -/
theorem c5_witness :
    searchMemory exEnv (.error ()) ⟨exMem5.db, some "s2"⟩ "hello" none none none =
      .ok (searchMessages exEnv exMem5.db (some "hello") (some "s2") none none 100) ∧
    searchMessages exEnv exMem5.db (some "hello") (some "s2") none none 100 ≠ [] := by
  exact c5_fallback_keyword exEnv () ⟨exMem5.db, some "s2"⟩ "hello" exRow5
    (by decide) (by simp [exMem5]) (by decide) rfl rfl (by decide)

/-- A session id with no row is never counted as active. -/
theorem sessionIsActive_false_of_not_exists (st : MemState) (sid : String) (t now : Nat)
    (hex : sessionExists st sid = false) :
    sessionIsActive st sid t now = false := by
  cases h : sessionIsActive st sid t now
  · rfl
  · exact absurd (sessionExists_of_active st sid t now h) (by simp [hex])

/-- C6: on a session id with no stored row, `load_session` without a
`user_id` fails with the invalid-argument error, while `load_session` with
a `user_id` succeeds: it returns the given id, makes it the active
session, and appends a session row with `created_at = last_active = now`. -/
theorem c6_load_new_session (cfg : MemConfig) (m : MemCtx) (now : Nat) (sid uid : String)
    (hex : sessionExists m.db sid = false) (huid : uid ≠ "") :
    (loadSession cfg m now sid none).fst = .error .invalidArgument ∧
    (loadSession cfg m now sid (some uid)).fst = .ok sid ∧
    (loadSession cfg m now sid (some uid)).snd.db.sessions =
      m.db.sessions ++ [⟨sid, some uid, now, now⟩] ∧
    (loadSession cfg m now sid (some uid)).snd.active = some sid := by
  have hact : sessionIsActive m.db sid cfg.sessionTimeout now = false :=
    sessionIsActive_false_of_not_exists m.db sid cfg.sessionTimeout now hex
  have hT : strTruthy (some uid) = true := by simp [strTruthy, huid]
  refine ⟨?_, ?_, ?_, ?_⟩ <;>
    simp [loadSession, hact, hex, hT, strTruthy, createSession, huid]

/-- C6 witness: the theorem applied on a store without a row for `s1`. -/
theorem c6_witness :
    (loadSession exCfg exMem0 5 "s1" none).fst = .error .invalidArgument ∧
    (loadSession exCfg exMem0 5 "s1" (some "u1")).fst = .ok "s1" ∧
    (loadSession exCfg exMem0 5 "s1" (some "u1")).snd.db.sessions =
      exMem0.db.sessions ++ [⟨"s1", some "u1", 5, 5⟩] ∧
    (loadSession exCfg exMem0 5 "s1" (some "u1")).snd.active = some "s1" :=
  c6_load_new_session exCfg exMem0 5 "s1" "u1" (by decide) (by decide)

/-- C10: when `load_session` raises the invalid-argument error (unknown
session id, falsy `user_id`), the whole handle — database tables and
active session alike — is returned unchanged: the raise precedes every
write. -/
theorem c10_load_error_atomic (cfg : MemConfig) (m : MemCtx) (now : Nat) (sid : String)
    (uid : Option String) (hex : sessionExists m.db sid = false)
    (huid : strTruthy uid = false) :
    loadSession cfg m now sid uid = (.error .invalidArgument, m) := by
  have hact : sessionIsActive m.db sid cfg.sessionTimeout now = false :=
    sessionIsActive_false_of_not_exists m.db sid cfg.sessionTimeout now hex
  simp [loadSession, hact, hex, huid]

/-- C10 witness: a failing `load_session` on the concrete handle leaves
it untouched. -/
theorem c10_witness :
    loadSession exCfg exMem0 5 "s1" none = (.error .invalidArgument, exMem0) :=
  c10_load_error_atomic exCfg exMem0 5 "s1" none (by decide) (by decide)

/-- C7: after `add_memory(c, r, m)` in an active session whose stored
timestamps are strictly increasing and older than `now`, with fewer than
100 rows and a token limit that is nonzero and at least the session's
total token count, `get_session_messages` returns the previous session
history with one appended row whose `content`, `role` and `tokens` are
exactly `c`, `r` and the tokenizer count of `c` computed at insert (the
read path never consults the tokenizer). -/
theorem c7_roundtrip (cfg : MemConfig) (tok : String → Nat) (m m2 : MemCtx) (now : Nat)
    (sid c r : String) (md : Option String) (L : Int)
    (hact : m.active = some sid)
    (hadd : addMemory cfg tok m now c r md = .ok m2)
    (hasc : List.Pairwise (fun a b : MsgRow => a.timestamp < b.timestamp)
      (m.db.messages.filter (fun x => x.session_id == sid)))
    (hnow : ∀ x ∈ m.db.messages, x.session_id = sid → x.timestamp < now)
    (hlen : (m.db.messages.filter (fun x => x.session_id == sid)).length + 1 ≤ 100)
    (hL : sumTokens (m.db.messages.filter (fun x => x.session_id == sid)) + (tok c : Int) ≤ L)
    (hL0 : L ≠ 0) :
    ∃ row, memGetSessionMessages m2 (some L) =
        m.db.messages.filter (fun x => x.session_id == sid) ++ [row] ∧
      row.content = c ∧ row.role = r ∧ row.tokens = tok c := by
  simp only [addMemory, hact] at hadd
  have hm2 := Except.ok.inj hadd
  subst hm2
  refine ⟨(⟨m.db.nextId, sid, chunkIndexFor cfg m.db sid r now, r, c, tok c, now, md⟩ :
    MsgRow), ?_, rfl, rfl, rfl⟩
  simp only [memGetSessionMessages, dbGetSessionMessages, dbAddMessage]
  have hfa : (m.db.messages ++
        ([⟨m.db.nextId, sid, chunkIndexFor cfg m.db sid r now, r, c, tok c, now, md⟩] :
          List MsgRow)).filter
        (fun x => x.session_id == sid) =
      m.db.messages.filter (fun x => x.session_id == sid) ++
        [⟨m.db.nextId, sid, chunkIndexFor cfg m.db sid r now, r, c, tok c, now, md⟩] := by
    rw [List.filter_append]
    simp
  rw [hfa]
  have hpw : List.Pairwise (fun a b : MsgRow => a.timestamp < b.timestamp)
      (m.db.messages.filter (fun x => x.session_id == sid) ++
        [⟨m.db.nextId, sid, chunkIndexFor cfg m.db sid r now, r, c, tok c, now, md⟩]) := by
    rw [List.pairwise_append]
    refine ⟨hasc, List.pairwise_singleton _ _, ?_⟩
    intro a ha b hb
    rw [List.mem_singleton] at hb
    subst hb
    have hmem := (List.mem_filter.mp ha).1
    have hsid2 : a.session_id = sid := by
      have := (List.mem_filter.mp ha).2
      simpa using this
    exact hnow a hmem hsid2
  rw [sortDescBy_ascending _ _ hpw]
  rw [List.take_of_length_le (by simpa using hlen), List.reverse_reverse]
  refine applyTokenLimit_all _ _ hL0 ?_
  rw [sumTokens_append, sumTokens_cons]
  have : sumTokens ([] : List MsgRow) = 0 := rfl
  rw [this]
  simpa using hL

/-- C7 witness: the round-trip theorem applied to the concrete insertion
of `"ab"` into the empty active session at second 5. -/
theorem c7_witness :
    ∃ row, memGetSessionMessages exMem7 (some 10) =
        exMem0.db.messages.filter (fun x => x.session_id == "s") ++ [row] ∧
      row.content = "ab" ∧ row.role = "user" ∧ row.tokens = exTok "ab" :=
  c7_roundtrip exCfg exTok exMem0 exMem7 5 "s" "ab" "user" none 10 rfl rfl
    (by decide) (by simp [exMem0]) (by decide) (by decide) (by decide)

/-- A sum of squared entries is nonnegative. -/
theorem sumSq_nonneg (a : List ℝ) : 0 ≤ (a.map (fun x => x ^ 2)).sum := by
  induction a with
  | nil => simp
  | cons x t ih =>
    simp only [List.map_cons, List.sum_cons]
    have hx := sq_nonneg x
    linarith

/-- A sum of squared entries vanishes exactly on the zero vector. -/
theorem sumSq_eq_zero_iff (a : List ℝ) :
    (a.map (fun x => x ^ 2)).sum = 0 ↔ ∀ x ∈ a, x = 0 := by
  induction a with
  | nil => simp
  | cons x t ih =>
    simp only [List.map_cons, List.sum_cons, List.mem_cons]
    constructor
    · intro h
      have h1 : 0 ≤ x ^ 2 := sq_nonneg x
      have h2 : 0 ≤ (t.map (fun y => y ^ 2)).sum := sumSq_nonneg t
      have hx : x = 0 := sq_eq_zero_iff.mp (by linarith)
      intro y hy
      rcases hy with rfl | hyt
      · exact hx
      · exact (ih.mp (by linarith)) y hyt
    · intro h
      have hx : x = 0 := h x (Or.inl rfl)
      have ht : (t.map (fun y => y ^ 2)).sum = 0 := ih.mpr (fun y hy => h y (Or.inr hy))
      rw [hx, ht]
      norm_num

/-- The Euclidean norm vanishes exactly on the zero vector. -/
theorem normList_eq_zero_iff (a : List ℝ) : normList a = 0 ↔ ∀ x ∈ a, x = 0 := by
  rw [normList]
  constructor
  · intro h
    have hle : (a.map (fun x => x ^ 2)).sum ≤ 0 := Real.sqrt_eq_zero'.mp h
    exact (sumSq_eq_zero_iff a).mp (le_antisymm hle (sumSq_nonneg a))
  · intro h
    rw [(sumSq_eq_zero_iff a).mpr h, Real.sqrt_zero]

/-- C9: `_cosine_similarity` returns `0` whenever either argument is the
zero vector, and otherwise returns the dot product divided by the product
of the norms, that product being nonzero — no division by zero occurs. -/
theorem c9_cosine_similarity (a b : List ℝ) :
    (((∀ x ∈ a, x = 0) ∨ (∀ x ∈ b, x = 0)) → cosineSimilarity a b = 0) ∧
    (¬ ((∀ x ∈ a, x = 0) ∨ (∀ x ∈ b, x = 0)) →
      normList a * normList b ≠ 0 ∧
      cosineSimilarity a b = dotList a b / (normList a * normList b)) := by
  constructor
  · intro h
    rw [cosineSimilarity, if_pos]
    rcases h with h | h
    · exact Or.inl ((normList_eq_zero_iff a).mpr h)
    · exact Or.inr ((normList_eq_zero_iff b).mpr h)
  · intro h
    have ha : ¬ (∀ x ∈ a, x = 0) := fun hp => h (Or.inl hp)
    have hb : ¬ (∀ x ∈ b, x = 0) := fun hp => h (Or.inr hp)
    have hna : normList a ≠ 0 := fun hz => ha ((normList_eq_zero_iff a).mp hz)
    have hnb : normList b ≠ 0 := fun hz => hb ((normList_eq_zero_iff b).mp hz)
    refine ⟨mul_ne_zero hna hnb, ?_⟩
    rw [cosineSimilarity, if_neg]
    rintro (hz | hz)
    · exact hna hz
    · exact hnb hz

/-- C9 witness: the zero-vector branch evaluated on `[0, 0]` and `[1, 2]`. -/
theorem c9_witness : cosineSimilarity [(0 : ℝ), 0] [1, 2] = 0 :=
  (c9_cosine_similarity [(0 : ℝ), 0] [1, 2]).1 (Or.inl (by simp))
